import Mathlib

set_option autoImplicit false

/-!
Shallow embedding of `pandoc_converter.py` (Nautilus Pandoc Converter extension).

The embedding models:
* Python truthiness of optional string values (`None` and `""` are falsy),
  as used by `config.get("to") or config.get("write")`;
* the `FORMAT_EXTENSIONS` table, base-format splitting
  (`re.split(r"[+-]", output_format)[0]`) and extension resolution
  (`FORMAT_EXTENSIONS.get(base_format, f".{base_format}")`);
* `pathlib` semantics of `suffix`, `stem` and `with_suffix` on a path modelled
  as a directory part plus a final name component;
* `_find_defaults_files`, over a list of candidate documents each carrying the
  outcome of `yaml.safe_load(filepath.read_text())`: an `IOError`/`YAMLError`,
  a successfully parsed non-mapping value, or a mapping with optional
  string-valued `to`/`write` keys;
* the child-process body `_run_conversion`, as a trace of external actions
  (pandoc invocation, notify-send calls) plus a termination outcome that
  records whether an exception escaped the top-level `try`/`except`.  The
  `except` handler builds `f"Error converting {input_path_obj.name}: ..."`,
  and `input_path_obj` is assigned only after the defaults file has been read
  and the extension resolved; an exception raised before that assignment makes
  the handler itself raise `UnboundLocalError`, which escapes;
* `get_file_items`, over menu-item records that keep the strings passed to
  the Nautilus widgets and the arguments captured by the activate callback.
-/

namespace PandocConverter

/-- Python truthiness of an optional string (`None` and `""` are falsy). -/
def truthyStr : Option String → Bool
  | none => false
  | some s => s ≠ ""

/-- The Python expression `a or b` on two optional strings: the first operand
when it is truthy, otherwise the second operand (whatever its truthiness). -/
def pyOrOpt (a b : Option String) : Option String :=
  if truthyStr a then a else b

/-- The class attribute `FORMAT_EXTENSIONS`, in source order. -/
def FORMAT_EXTENSIONS : List (String × String) :=
  [("docx", ".docx"),
   ("epub", ".epub"),
   ("html", ".html"),
   ("markdown", ".md"),
   ("odt", ".odt"),
   ("pdf", ".pdf"),
   ("pptx", ".pptx"),
   ("tei", ".xml"),
   ("latex", ".tex"),
   ("typst", ".typ"),
   ("revealjs", ".html")]

/-- Characters on which `re.split(r"[+-]", output_format)` splits. -/
def isFormatSep (c : Char) : Bool :=
  c == '+' || c == '-'

/-- `re.split(r"[+-]", output_format)[0]`: the part of the format string
before its first `+` or `-` (the whole string when neither occurs). -/
def baseFormat (s : String) : String :=
  String.mk (s.data.takeWhile (fun c => !isFormatSep c))

/-- `PandocConverterExtension.FORMAT_EXTENSIONS.get(base_format, f".{base_format}")`. -/
def resolveExtension (base : String) : String :=
  (FORMAT_EXTENSIONS.lookup base).getD ("." ++ base)

/-- `str.lower()` as applied to file suffixes: lower-case every character
(`String.toLower`, recast over the character list). -/
def pyLower (s : String) : String :=
  String.mk (s.data.map Char.toLower)

/-- A filesystem path: directory components plus the final name component
(`pathlib.PurePath.name`). -/
structure PPath where
  dir : List String
  name : String
deriving DecidableEq, Repr

/-- Split a character list at its LAST dot: `splitLastDot l = some (b, a)`
means `l = b ++ '.' :: a` with no dot in `a` (mirroring `name.rfind('.')`);
`none` means `l` has no dot. -/
def splitLastDot : List Char → Option (List Char × List Char)
  | [] => none
  | c :: cs =>
    match splitLastDot cs with
    | some (b, a) => some (c :: b, a)
    | none => if c = '.' then some ([], cs) else none

/-- `pathlib.PurePath.suffix` of a name: `name[i:]` for `i = name.rfind('.')`
when `0 < i < len(name) - 1`, else `""` (so dotless names, a leading dot and a
trailing dot give no suffix). -/
def pySuffix (name : String) : String :=
  match splitLastDot name.data with
  | some (b, a) => if b ≠ [] ∧ a ≠ [] then String.mk ('.' :: a) else ""
  | none => ""

/-- `pathlib.PurePath.stem` of a name: the name with `pySuffix` removed. -/
def pyStem (name : String) : String :=
  match splitLastDot name.data with
  | some (b, a) => if b ≠ [] ∧ a ≠ [] then String.mk b else name
  | none => name

/-- `pathlib.PurePath.with_suffix(ext)`: `none` models the `ValueError`
raised on a malformed replacement suffix or an empty name; otherwise the old
suffix (when any) is dropped from the name and `ext` is appended. -/
def withSuffix (p : PPath) (ext : String) : Option PPath :=
  if ext.data.contains '/' then none
  else if (ext ≠ "" ∧ ¬ ext.data.head? = some '.') ∨ ext = "." then none
  else if p.name = "" then none
  else if pySuffix p.name = "" then
    some ⟨p.dir, p.name ++ ext⟩
  else
    some ⟨p.dir, String.mk (p.name.data.take (p.name.length - (pySuffix p.name).length)) ++ ext⟩

/-- Outcome of `yaml.safe_load(filepath.read_text())` on one candidate file. -/
inductive ParseOutcome where
  /-- The read raised `IOError` or the parse raised `yaml.YAMLError`. -/
  | parseError
  /-- The parse succeeded but produced a non-mapping value (`None`, a string,
  a list, ...), on which `.get` raises `AttributeError`. -/
  | nonMapping
  /-- The parse produced a mapping; `to`/`write` hold its string values for
  those keys when present. -/
  | mapping (toField writeField : Option String)
deriving DecidableEq

/-- One candidate `*.yaml` document of the defaults directory. -/
structure DefaultsDoc where
  /-- `filepath.stem` -/
  stem : String
  /-- the full `filepath`, kept as the mapping's value -/
  path : String
  /-- outcome of reading and parsing the file -/
  parse : ParseOutcome
deriving DecidableEq

/-- A Python exception escaping a modelled function. -/
inductive PyError where
  | attributeError
deriving DecidableEq

/-- `_find_defaults_files`, from the `for filepath in defaults_dir.glob(...)`
loop on: each document either contributes an entry `(stem, path)`, is skipped,
is skipped via the `except (yaml.YAMLError, IOError)` handler, or raises an
uncaught `AttributeError` (non-mapping parse result reaching `config.get`). -/
def findDefaultsFiles : List DefaultsDoc → Except PyError (List (String × String))
  | [] => .ok []
  | d :: ds =>
    match d.parse with
    | .parseError => findDefaultsFiles ds
    | .nonMapping => .error .attributeError
    | .mapping toField writeField =>
      if truthyStr (pyOrOpt toField writeField) then
        (findDefaultsFiles ds).map (fun m => (d.stem, d.path) :: m)
      else
        findDefaultsFiles ds

/-- The entry a single candidate document contributes to the discovery
result: its `(stem, path)` pair when it parses to a mapping whose
`to`-or-`write` value is truthy, nothing otherwise. -/
def docEntry (d : DefaultsDoc) : Option (String × String) :=
  match d.parse with
  | .mapping toField writeField =>
    if truthyStr (pyOrOpt toField writeField) then some (d.stem, d.path) else none
  | _ => none

/-- Environment of one `_run_conversion` child: what re-reading the defaults
file yields, and whether the `pandoc` subprocess (run with `check=True`)
succeeds. -/
structure ConvEnv where
  defaultsDoc : ParseOutcome
  pandocOk : Bool
deriving DecidableEq

/-- External actions performed by the child process. -/
inductive Action where
  /-- `subprocess.run(["pandoc", "-d", defaults_file, input_path, "-o", ...])` -/
  | runPandoc (defaultsFile : String) (input output : PPath)
  /-- `notify-send "Pandoc Conversion Complete" ...` naming both files -/
  | notifyComplete (inputName outputName : String)
  /-- `notify-send "Pandoc Conversion Error" ...` naming the source file -/
  | notifyError (inputName : String)
deriving DecidableEq

/-- How the child's `_run_conversion` body terminates. -/
inductive ChildOutcome where
  /-- the function returned; every raised exception was handled -/
  | finished
  /-- an exception escaped the top-level `try`/`except` -/
  | uncaughtError
deriving DecidableEq

/-- `_run_conversion(input_path, defaults_file)`: the list of external actions
performed, and whether an exception escaped.  When the defaults file fails to
open/parse, or parses to a non-mapping, the raised exception reaches the
`except` handler before `input_path_obj = Path(input_path)` has run, so the
handler's `input_path_obj.name` raises `UnboundLocalError`, which escapes and
no notification is emitted.  After that assignment, failures (a `ValueError`
from `with_suffix`, a failing `pandoc` run) are caught and produce the error
notification. -/
def runConversion (env : ConvEnv) (inputPath : PPath) (defaultsFile : String) :
    List Action × ChildOutcome :=
  match env.defaultsDoc with
  | .parseError => ([], .uncaughtError)
  | .nonMapping => ([], .uncaughtError)
  | .mapping toField writeField =>
    match pyOrOpt toField writeField with
    | none => ([], .finished)
    | some fmt =>
      if fmt = "" then ([], .finished)
      else
        match withSuffix inputPath (resolveExtension (baseFormat fmt)) with
        | none => ([.notifyError inputPath.name], .finished)
        | some outputPath =>
          if env.pandocOk then
            ([.runPandoc defaultsFile inputPath outputPath,
              .notifyComplete inputPath.name outputPath.name], .finished)
          else
            ([.runPandoc defaultsFile inputPath outputPath,
              .notifyError inputPath.name], .finished)

/-- A submenu item, with the strings given to `Nautilus.MenuItem` and the
arguments the `activate` lambda captures for `_convert_file`. -/
structure SubMenuItem where
  name : String
  label : String
  tip : String
  activateInput : PPath
  activateDefaults : String
deriving DecidableEq

/-- A top-level menu item with its submenu. -/
structure MenuItem where
  name : String
  label : String
  tip : String
  submenu : List SubMenuItem
deriving DecidableEq

/-- The extension's process-wide state: `self.defaults_files`, an
insertion-ordered mapping from menu name to defaults-file path. -/
structure ExtensionState where
  defaultsFiles : List (String × String)
deriving DecidableEq

/-- `get_file_items(self, files)`: empty unless exactly one file is selected
and its suffix, lower-cased, is `.md` or `.markdown`; then one "Convert" item
whose submenu has an entry per discovered defaults file, returned only when
`self.defaults_files` is non-empty. -/
def getFileItems (st : ExtensionState) (files : List PPath) : List MenuItem :=
  match files with
  | [filePath] =>
    if pyLower (pySuffix filePath.name) ∉ [".md", ".markdown"] then []
    else
      let convertItem : MenuItem :=
        { name := "PandocConverter::Convert"
          label := "Convert"
          tip := "Convert using Pandoc"
          submenu := st.defaultsFiles.map (fun p =>
            { name := "PandocConverter::Convert::" ++ p.1
              label := p.1
              tip := "Convert using " ++ p.1 ++ " defaults"
              activateInput := filePath
              activateDefaults := p.2 }) }
      if st.defaultsFiles ≠ [] then [convertItem] else []
  | _ => []

/-! Helper lemmas about the path and format embedding. -/

theorem splitLastDot_none {l : List Char} (h : splitLastDot l = none) : '.' ∉ l := by
  induction l with
  | nil => simp
  | cons c cs ih =>
    cases hcs : splitLastDot cs with
    | some p =>
      obtain ⟨b, a⟩ := p
      simp only [splitLastDot, hcs] at h
      exact absurd h (by simp)
    | none =>
      simp only [splitLastDot, hcs] at h
      by_cases hc : c = '.'
      · rw [if_pos hc] at h; simp at h
      · intro hm
        rcases List.mem_cons.mp hm with hm | hm
        · exact hc hm.symm
        · exact ih hcs hm

theorem splitLastDot_eq {l b a : List Char} (h : splitLastDot l = some (b, a)) :
    l = b ++ '.' :: a ∧ '.' ∉ a := by
  induction l generalizing b a with
  | nil => simp [splitLastDot] at h
  | cons c cs ih =>
    cases hcs : splitLastDot cs with
    | some p =>
      obtain ⟨b', a'⟩ := p
      simp only [splitLastDot, hcs, Option.some.injEq, Prod.mk.injEq] at h
      obtain ⟨hb, ha⟩ := h
      subst hb
      subst ha
      obtain ⟨h1, h2⟩ := ih hcs
      exact ⟨by rw [List.cons_append, ← h1], h2⟩
    | none =>
      simp only [splitLastDot, hcs] at h
      by_cases hc : c = '.'
      · rw [if_pos hc] at h
        simp only [Option.some.injEq, Prod.mk.injEq] at h
        obtain ⟨hb, ha⟩ := h
        subst hb
        subst ha
        exact ⟨by rw [hc]; rfl, splitLastDot_none hcs⟩
      · rw [if_neg hc] at h; simp at h

theorem string_mk_cons_ne_empty (c : Char) (l : List Char) : String.mk (c :: l) ≠ "" := by
  intro h
  have hd : c :: l = ("" : String).data := congrArg String.data h
  simp at hd

theorem pySuffix_split {n : String} {b a : List Char} (hs : splitLastDot n.data = some (b, a)) :
    pySuffix n = if b ≠ [] ∧ a ≠ [] then String.mk ('.' :: a) else "" := by
  unfold pySuffix
  rw [hs]

theorem pySuffix_nosplit {n : String} (hs : splitLastDot n.data = none) : pySuffix n = "" := by
  unfold pySuffix
  rw [hs]

theorem pyStem_split {n : String} {b a : List Char} (hs : splitLastDot n.data = some (b, a)) :
    pyStem n = if b ≠ [] ∧ a ≠ [] then String.mk b else n := by
  unfold pyStem
  rw [hs]

theorem pyStem_of_pySuffix_empty {n : String} (h : pySuffix n = "") : pyStem n = n := by
  cases hs : splitLastDot n.data with
  | none => unfold pyStem; rw [hs]
  | some p =>
    obtain ⟨b, a⟩ := p
    rw [pySuffix_split hs] at h
    rw [pyStem_split hs]
    split_ifs at h ⊢ with hg
    · exact absurd h (string_mk_cons_ne_empty _ _)
    · rfl

theorem pySuffix_take {n : String} (h : pySuffix n ≠ "") :
    String.mk (n.data.take (n.length - (pySuffix n).length)) = pyStem n := by
  cases hs : splitLastDot n.data with
  | none => exact absurd (pySuffix_nosplit hs) h
  | some p =>
    obtain ⟨b, a⟩ := p
    by_cases hg : b ≠ [] ∧ a ≠ []
    · have hsuf : pySuffix n = String.mk ('.' :: a) := by rw [pySuffix_split hs, if_pos hg]
      have hstem : pyStem n = String.mk b := by rw [pyStem_split hs, if_pos hg]
      have hdec : n.data = b ++ '.' :: a := (splitLastDot_eq hs).1
      have hlen : n.length - (pySuffix n).length = b.length := by
        have h1 : n.length = n.data.length := rfl
        have h2 : (pySuffix n).length = a.length + 1 := by rw [hsuf]; rfl
        rw [h1, h2, hdec]
        simp
      rw [hstem, hlen, hdec, List.take_left]
    · exact absurd (by rw [pySuffix_split hs, if_neg hg]) h

theorem withSuffix_spec {p : PPath} {ext : String} {d : PPath}
    (h : withSuffix p ext = some d) :
    d.dir = p.dir ∧ d.name = pyStem p.name ++ ext := by
  unfold withSuffix at h
  split_ifs at h with h1 h2 h3 h4
  · obtain rfl : (⟨p.dir, p.name ++ ext⟩ : PPath) = d := Option.some.inj h
    exact ⟨rfl, by rw [pyStem_of_pySuffix_empty h4]⟩
  · obtain rfl : (⟨p.dir, String.mk (p.name.data.take (p.name.length - (pySuffix p.name).length))
        ++ ext⟩ : PPath) = d := Option.some.inj h
    exact ⟨rfl, by rw [pySuffix_take h4]⟩

theorem dropWhile_head_not {p : Char → Bool} {l : List Char} {c : Char}
    (h : (l.dropWhile p).head? = some c) : p c = false := by
  induction l with
  | nil => simp [List.dropWhile] at h
  | cons x xs ih =>
    simp only [List.dropWhile_cons] at h
    split_ifs at h with hx
    · exact ih h
    · obtain rfl : x = c := Option.some.inj (by simpa using h)
      simpa using hx

theorem findDefaultsFiles_key_mem :
    ∀ {ds : List DefaultsDoc} {m : List (String × String)},
      findDefaultsFiles ds = .ok m → ∀ e ∈ m, e.1 ∈ ds.map DefaultsDoc.stem := by
  intro ds
  induction ds with
  | nil =>
    intro m h e he
    simp only [findDefaultsFiles, Except.ok.injEq] at h
    subst h
    simp at he
  | cons d ds ih =>
    intro m h e he
    simp only [findDefaultsFiles] at h
    cases hp : d.parse with
    | parseError =>
      rw [hp] at h
      simp only [List.map_cons]
      exact List.mem_cons_of_mem _ (ih h e he)
    | nonMapping =>
      rw [hp] at h
      simp at h
    | mapping tf wf =>
      rw [hp] at h
      dsimp only [] at h
      split_ifs at h with htr
      · cases hds : findDefaultsFiles ds with
        | error err => rw [hds] at h; simp [Except.map] at h
        | ok m' =>
          rw [hds] at h
          simp only [Except.map, Except.ok.injEq] at h
          subst h
          simp only [List.map_cons]
          rcases List.mem_cons.mp he with rfl | he'
          · exact List.mem_cons_self _ _
          · exact List.mem_cons_of_mem _ (ih hds e he')
      · simp only [List.map_cons]
        exact List.mem_cons_of_mem _ (ih h e he)

/-! Claim theorems. -/

/-- Claim C1 (code_bug evidence): when re-reading the defaults file in the
child raises (the file cannot be opened, its YAML fails to parse, or the
parsed value is not a mapping), `_run_conversion` performs no external action
at all — in particular no error notification — and the exception escapes the
top-level `try`/`except`, because the handler references `input_path_obj`
before that variable has been assigned.  This contradicts the claim that every
failure mode, including a failure to open or parse the defaults file itself,
ends in an error notification with no exception escaping the child. -/
theorem c1_defaults_failure_escapes_unnotified :
    runConversion ⟨.parseError, true⟩ ⟨["home", "user"], "paper.md"⟩ "pdf.yaml"
        = ([], .uncaughtError)
    ∧ runConversion ⟨.nonMapping, true⟩ ⟨["home", "user"], "paper.md"⟩ "pdf.yaml"
        = ([], .uncaughtError) := by
  decide

/-- Claim C2 (counterexample): a candidate document that parses successfully
to a non-mapping value (an empty YAML file parses to `None`, a bare scalar to
a string) makes `config.get("to")` raise `AttributeError`, which the
`except (yaml.YAMLError, IOError)` clause does not catch — the exception
escapes discovery instead of leaving the document absent from the result. -/
theorem c2_non_mapping_doc_raises :
    findDefaultsFiles [⟨"empty", "defaults/empty.yaml", .nonMapping⟩]
      = .error .attributeError := rfl

/-- Claim C2 (amended): for every set of candidate documents none of which
parses to a non-mapping value, discovery returns normally, and each document
contributes exactly its `docEntry` — so documents whose read or parse raised,
and documents without a truthy `to`/`write` value, are absent from the
result and discovery swallows their errors. -/
theorem c2_read_errors_swallowed :
    ∀ ds : List DefaultsDoc, (∀ d ∈ ds, d.parse ≠ ParseOutcome.nonMapping) →
      findDefaultsFiles ds = .ok (ds.filterMap docEntry) := by
  intro ds
  induction ds with
  | nil => intro _; rfl
  | cons d ds ih =>
    intro h
    have hd : d.parse ≠ ParseOutcome.nonMapping := h d (List.mem_cons_self _ _)
    have hds : ∀ d' ∈ ds, d'.parse ≠ ParseOutcome.nonMapping :=
      fun d' hd' => h d' (List.mem_cons_of_mem _ hd')
    simp only [findDefaultsFiles, List.filterMap_cons, docEntry]
    cases hp : d.parse with
    | parseError => simpa using ih hds
    | nonMapping => exact absurd hp hd
    | mapping tf wf =>
      dsimp only []
      split_ifs with htr
      · rw [ih hds]
        simp [Except.map]
      · simpa using ih hds

/-- Witness for `c2_read_errors_swallowed` at a concrete document set with
one good profile and one unreadable file. -/
theorem c2_read_errors_swallowed_witness :
    findDefaultsFiles
        [⟨"word", "defaults/word.yaml", .mapping (some "docx") none⟩,
         ⟨"broken", "defaults/broken.yaml", .parseError⟩]
      = .ok [("word", "defaults/word.yaml")] :=
  c2_read_errors_swallowed
    [⟨"word", "defaults/word.yaml", .mapping (some "docx") none⟩,
     ⟨"broken", "defaults/broken.yaml", .parseError⟩]
    (by decide)

/-- Claim C3: whenever discovery returns a mapping, every candidate document
that parsed to a mapping with a truthy `to`-or-`write` value has exactly one
entry in the result, keyed by the document's filename stem (stems of distinct
files in one directory are distinct, since all share the `.yaml` suffix). -/
theorem c3_valid_profile_keyed_by_stem :
    ∀ (ds : List DefaultsDoc) (m : List (String × String)) (d : DefaultsDoc)
      (tf wf : Option String),
      (ds.map DefaultsDoc.stem).Nodup →
      findDefaultsFiles ds = .ok m →
      d ∈ ds →
      d.parse = ParseOutcome.mapping tf wf →
      truthyStr (pyOrOpt tf wf) = true →
      m.filter (fun e => e.1 == d.stem) = [(d.stem, d.path)] := by
  intro ds
  induction ds with
  | nil =>
    intro m d tf wf _ _ hd
    simp at hd
  | cons d0 ds ih =>
    intro m d tf wf hnd hok hd hp htr
    rw [List.map_cons, List.nodup_cons] at hnd
    obtain ⟨hnotin, hnd'⟩ := hnd
    simp only [findDefaultsFiles] at hok
    rcases List.mem_cons.mp hd with rfl | hd'
    · rw [hp] at hok
      dsimp only [] at hok
      rw [if_pos htr] at hok
      cases hds : findDefaultsFiles ds with
      | error err => rw [hds] at hok; simp [Except.map] at hok
      | ok m' =>
        rw [hds] at hok
        simp only [Except.map, Except.ok.injEq] at hok
        subst hok
        rw [List.filter_cons]
        have hhead : (((d.stem, d.path) : String × String).1 == d.stem) = true := by simp
        rw [if_pos hhead]
        have htail : m'.filter (fun e => e.1 == d.stem) = [] := by
          rw [List.filter_eq_nil_iff]
          intro e he hbeq
          have hkey : e.1 = d.stem := by simpa using hbeq
          exact hnotin (hkey ▸ findDefaultsFiles_key_mem hds e he)
        rw [htail]
    · have hdstem : d.stem ∈ ds.map DefaultsDoc.stem := List.mem_map_of_mem _ hd'
      have hne : d0.stem ≠ d.stem := fun hh => hnotin (hh ▸ hdstem)
      cases hp0 : d0.parse with
      | parseError =>
        rw [hp0] at hok
        exact ih m d tf wf hnd' hok hd' hp htr
      | nonMapping =>
        rw [hp0] at hok
        simp at hok
      | mapping tf0 wf0 =>
        rw [hp0] at hok
        dsimp only [] at hok
        split_ifs at hok with htr0
        · cases hds : findDefaultsFiles ds with
          | error err => rw [hds] at hok; simp [Except.map] at hok
          | ok m' =>
            rw [hds] at hok
            simp only [Except.map, Except.ok.injEq] at hok
            subst hok
            rw [List.filter_cons]
            have hhead : (((d0.stem, d0.path) : String × String).1 == d.stem) = false := by
              simp [hne]
            rw [hhead]
            simp only [Bool.false_eq_true, if_false]
            exact ih m' d tf wf hnd' hds hd' hp htr
        · exact ih m d tf wf hnd' hok hd' hp htr

/-- Witness for `c3_valid_profile_keyed_by_stem` at a two-document directory. -/
theorem c3_valid_profile_keyed_by_stem_witness :
    ([("word", "defaults/word.yaml"), ("tex", "defaults/tex.yaml")]
        : List (String × String)).filter (fun e => e.1 == "tex")
      = [("tex", "defaults/tex.yaml")] :=
  c3_valid_profile_keyed_by_stem
    [⟨"word", "defaults/word.yaml", .mapping (some "docx") none⟩,
     ⟨"tex", "defaults/tex.yaml", .mapping none (some "latex")⟩]
    [("word", "defaults/word.yaml"), ("tex", "defaults/tex.yaml")]
    ⟨"tex", "defaults/tex.yaml", .mapping none (some "latex")⟩
    none (some "latex") (by decide) rfl (by decide) rfl (by decide)

/-- Claim C4 (counterexample): for a document with `to: ""` and
`write: "docx"`, the `to` field is present, yet
`config.get("to") or config.get("write")` yields the `write` value (`"docx"`,
not `""`): the `write` field is consulted although `to` is present, because
Python's `or` falls through on any falsy value, not only on absence. -/
theorem c4_empty_to_field_falls_through :
    pyOrOpt (some "") (some "docx") ≠ some "" ∧
    pyOrOpt (some "") (some "docx") = some "docx" := by
  decide

/-- Claim C4 (amended): the output format is taken from the `to` field
whenever `to` holds a truthy (present and non-empty) value; the `write` field
is consulted exactly when `to` is absent or falsy; and the resulting value is
falsy — so the document is skipped — only when neither field holds a truthy
value. -/
theorem c4_truthiness_precedence :
    ∀ tf wf : Option String,
      (truthyStr tf = true → pyOrOpt tf wf = tf)
      ∧ (truthyStr tf = false → pyOrOpt tf wf = wf)
      ∧ (truthyStr tf = false → truthyStr wf = false →
          truthyStr (pyOrOpt tf wf) = false) := by
  intro tf wf
  refine ⟨fun h => ?_, fun h => ?_, fun h1 h2 => ?_⟩
  · simp [pyOrOpt, h]
  · simp [pyOrOpt, h]
  · simp [pyOrOpt, h1, h2]

/-- Witness for `c4_truthiness_precedence`: a truthy `to` value wins. -/
theorem c4_truthiness_precedence_witness :
    pyOrOpt (some "docx") (some "html") = some "docx" :=
  (c4_truthiness_precedence (some "docx") (some "html")).1 (by decide)

/-- Claim C5: the base format is the prefix of the format string before its
first `+` or `-` (all of it when neither occurs): it is an initial segment of
the string, contains no `+`/`-`, and the remainder, when non-empty, starts
with `+` or `-`.  The resolved extension is the `FORMAT_EXTENSIONS` entry for
the base format when one exists and `"." ++ base` otherwise, and
`"markdown+smart"` resolves to `".md"`. -/
theorem c5_base_format_and_extension :
    ∀ s : String,
      (∃ rest, s.data = (baseFormat s).data ++ rest
          ∧ ∀ c, rest.head? = some c → c = '+' ∨ c = '-')
      ∧ (∀ c ∈ (baseFormat s).data, c ≠ '+' ∧ c ≠ '-')
      ∧ (∀ e, FORMAT_EXTENSIONS.lookup (baseFormat s) = some e →
          resolveExtension (baseFormat s) = e)
      ∧ (FORMAT_EXTENSIONS.lookup (baseFormat s) = none →
          resolveExtension (baseFormat s) = "." ++ baseFormat s)
      ∧ resolveExtension (baseFormat "markdown+smart") = ".md" := by
  intro s
  refine ⟨⟨s.data.dropWhile (fun c => !isFormatSep c), ?_, ?_⟩, ?_, ?_, ?_, ?_⟩
  · exact (List.takeWhile_append_dropWhile _ _).symm
  · intro c hc
    have hfail := dropWhile_head_not hc
    simp [isFormatSep] at hfail
    exact or_iff_not_imp_left.mpr hfail
  · intro c hc
    have hmem : c ∈ s.data.takeWhile (fun c => !isFormatSep c) := hc
    have hpass := List.mem_takeWhile_imp hmem
    simpa [isFormatSep] using hpass
  · intro e he
    simp [resolveExtension, he]
  · intro he
    simp [resolveExtension, he]
  · decide

/-- Witness for `c5_base_format_and_extension`: the table entry for the base
format of `"markdown+smart"` is `".md"`, so the resolution returns it. -/
theorem c5_base_format_and_extension_witness :
    resolveExtension (baseFormat "markdown+smart") = ".md" :=
  (c5_base_format_and_extension "markdown+smart").2.2.1 ".md" (by decide)

/-- Claim C6: whenever `with_suffix` yields a destination for a source path
and a resolved extension, the destination lies in the source's directory and
its name is the source's stem followed by the resolved extension — stripping
that extension from the destination gives back the source's stem.  In
particular `paper.md` with format `latex+raw_tex` yields `paper.tex`, and
`notes.md` with format `revealjs` yields `notes.html`. -/
theorem c6_destination_same_dir_and_stem :
    (∀ (src : PPath) (fmt : String) (dst : PPath),
        withSuffix src (resolveExtension (baseFormat fmt)) = some dst →
        dst.dir = src.dir
          ∧ dst.name = pyStem src.name ++ resolveExtension (baseFormat fmt))
    ∧ withSuffix ⟨["docs"], "paper.md"⟩ (resolveExtension (baseFormat "latex+raw_tex"))
        = some ⟨["docs"], "paper.tex"⟩
    ∧ withSuffix ⟨["docs"], "notes.md"⟩ (resolveExtension (baseFormat "revealjs"))
        = some ⟨["docs"], "notes.html"⟩ :=
  ⟨fun _ _ _ h => withSuffix_spec h, by decide, by decide⟩

/-- Witness for `c6_destination_same_dir_and_stem` at `paper.md` with format
`latex+raw_tex`. -/
theorem c6_destination_same_dir_and_stem_witness :
    (⟨["docs"], "paper.tex"⟩ : PPath).dir = (⟨["docs"], "paper.md"⟩ : PPath).dir
    ∧ (⟨["docs"], "paper.tex"⟩ : PPath).name
        = pyStem "paper.md" ++ resolveExtension (baseFormat "latex+raw_tex") :=
  c6_destination_same_dir_and_stem.1 ⟨["docs"], "paper.md"⟩ "latex+raw_tex"
    ⟨["docs"], "paper.tex"⟩ (by decide)

/-- Claim C7: `get_file_items` returns a non-empty list only when the
selection is exactly one file whose lower-cased suffix is `.md` or
`.markdown`; every other selection (no file, several files, a single file
with another extension) yields the empty list. -/
theorem c7_menu_requires_single_markdown :
    ∀ (st : ExtensionState) (files : List PPath),
      getFileItems st files ≠ [] →
      ∃ f, files = [f]
        ∧ (pyLower (pySuffix f.name) = ".md"
            ∨ pyLower (pySuffix f.name) = ".markdown") := by
  intro st files h
  match files with
  | [] => exact absurd rfl h
  | [f] =>
    refine ⟨f, rfl, ?_⟩
    by_cases hm : pyLower (pySuffix f.name) ∈ [".md", ".markdown"]
    · simpa using hm
    · exact absurd (by simp [getFileItems, hm]) h
  | f1 :: f2 :: fs => exact absurd rfl h

/-- Witness for `c7_menu_requires_single_markdown`: a selection holding one
`notes.md` with one discovered profile yields a menu item. -/
theorem c7_menu_requires_single_markdown_witness :
    ∃ f, ([⟨["home"], "notes.md"⟩] : List PPath) = [f]
      ∧ (pyLower (pySuffix f.name) = ".md"
          ∨ pyLower (pySuffix f.name) = ".markdown") :=
  c7_menu_requires_single_markdown ⟨[("pdf", "defaults/pdf.yaml")]⟩
    [⟨["home"], "notes.md"⟩] (by decide)

/-- Claim C8: when the re-read defaults document is a mapping whose
`to`-or-`write` value is falsy (both fields absent or empty), the child
returns without running pandoc and without emitting any notification: the
action trace is empty and no exception escapes. -/
theorem c8_missing_format_aborts_silently :
    ∀ (env : ConvEnv) (inputPath : PPath) (defaultsFile : String)
      (tf wf : Option String),
      env.defaultsDoc = ParseOutcome.mapping tf wf →
      truthyStr (pyOrOpt tf wf) = false →
      runConversion env inputPath defaultsFile = ([], .finished) := by
  intro env ip df tf wf hdoc htr
  obtain ⟨doc, pok⟩ := env
  dsimp only [] at hdoc
  subst hdoc
  simp only [runConversion]
  cases hpo : pyOrOpt tf wf with
  | none => rfl
  | some fmt =>
    rw [hpo] at htr
    simp [truthyStr] at htr
    subst htr
    rfl

/-- Witness for `c8_missing_format_aborts_silently`: a profile with neither
field truthy makes the child a no-op. -/
theorem c8_missing_format_aborts_silently_witness :
    runConversion ⟨ParseOutcome.mapping none (some ""), true⟩ ⟨["home"], "notes.md"⟩
        "defaults/filter.yaml" = ([], .finished) :=
  c8_missing_format_aborts_silently ⟨ParseOutcome.mapping none (some ""), true⟩
    ⟨["home"], "notes.md"⟩ "defaults/filter.yaml" none (some "") rfl (by decide)

/-- Claim C9: with an empty discovered profile mapping, `get_file_items`
returns the empty list for every selection — also for a single selected
Markdown file, so no "Convert" item with an empty submenu is ever returned. -/
theorem c9_empty_profiles_no_menu :
    ∀ files : List PPath, getFileItems ⟨[]⟩ files = [] := by
  intro files
  match files with
  | [] => rfl
  | [f] => simp [getFileItems]
  | f1 :: f2 :: fs => rfl

/-- Claim C10: the Markdown filter compares the lower-cased suffix, so two
single-file selections whose suffixes agree after lower-casing yield the same
number of menu items; concretely, `NOTES.MD` and `notes.Markdown` yield a
menu item just as the lower-case forms do. -/
theorem c10_markdown_filter_case_insensitive :
    (∀ (st : ExtensionState) (f g : PPath),
        pyLower (pySuffix f.name) = pyLower (pySuffix g.name) →
        (getFileItems st [f]).length = (getFileItems st [g]).length)
    ∧ getFileItems ⟨[("pdf", "defaults/pdf.yaml")]⟩ [⟨["home"], "NOTES.MD"⟩] ≠ []
    ∧ getFileItems ⟨[("pdf", "defaults/pdf.yaml")]⟩ [⟨["home"], "notes.Markdown"⟩] ≠ [] := by
  refine ⟨?_, by decide, by decide⟩
  intro st f g h
  simp only [getFileItems]
  rw [h]
  by_cases hm : pyLower (pySuffix g.name) ∈ [".md", ".markdown"]
  · simp only [hm, not_true_eq_false, if_false]
    by_cases hd : st.defaultsFiles = []
    · simp [hd]
    · simp [hd]
  · simp [hm]

/-- Witness for `c10_markdown_filter_case_insensitive`: `A.MD` yields as many
menu items as `b.md`. -/
theorem c10_markdown_filter_case_insensitive_witness :
    (getFileItems ⟨[("pdf", "defaults/pdf.yaml")]⟩ [⟨["home"], "A.MD"⟩]).length
      = (getFileItems ⟨[("pdf", "defaults/pdf.yaml")]⟩ [⟨["home"], "b.md"⟩]).length :=
  c10_markdown_filter_case_insensitive.1 ⟨[("pdf", "defaults/pdf.yaml")]⟩
    ⟨["home"], "A.MD"⟩ ⟨["home"], "b.md"⟩ (by decide)

end PandocConverter
